import Mathlib

/-!
# Verification of the flame-chart-js `BasicRenderEngine`

Shallow embedding of the render-queue / compositing engine
(`src/engines/basic-render-engine.ts`).  JS numbers are modelled by `ℚ`,
JS strings by `String` / `List Char`, JS objects keyed by strings by
insertion-ordered association lists.
-/

namespace FlameChart

/-! ## Geometry: `renderBlock` -/

/-- `renderBlock`: clamp the rectangle to the `[0, width]` viewport before the
surface-level `fillRect`.  Returns the `(truncatedX, drawWidth)` pair actually
sent to `fillRect` (the `y`/`h` arguments pass through unchanged). -/
def renderBlockGeom (width x w : ℚ) : ℚ × ℚ :=
  let truncatedX := min width (max 0 x)
  let delta := truncatedX - x
  (truncatedX, min (width - truncatedX) (max 0 (w - delta)))

/-- Modelled from the spec's words: `clamp(v, lo, hi)`. -/
def specClamp (v lo hi : ℚ) : ℚ := max lo (min v hi)

/-! ## Pan/zoom position clamping -/

/-- `getRealView`: the width of the viewport in time units. -/
def getRealView (width zoom : ℚ) : ℚ := width / zoom

/-- `tryToChangePosition(positionDelta)`: shift `positionX` by the delta,
snapping to the nearest valid edge when the shifted window would leave
`[min, max]`. -/
def tryToChangePosition (width zoom mn mx posX delta : ℚ) : ℚ :=
  let realView := getRealView width zoom
  if posX + delta + realView ≤ mx ∧ mn ≤ posX + delta then posX + delta
  else if posX + delta ≤ mn then mn
  else if mx ≤ posX + delta + realView then mx - realView
  else posX

/-! ## `addText` -/

/-- A queued text item (`Text` in `types.ts`, as enqueued by `addText`). -/
structure TextItem where
  text : List Char
  x : ℚ
  y : ℚ
  w : ℚ
  textMaxWidth : ℚ
deriving DecidableEq, Repr

/-- The usable text width computed by `addText`:
`w - (blockPaddingLeftRight * 2 - (x < 0 ? x : 0))`. -/
def textMaxWidthOf (blockPaddingLeftRight x w : ℚ) : ℚ :=
  w - (blockPaddingLeftRight * 2 - (if x < 0 then x else 0))

/-- `addText({text, x, y, w}, priority)`: compute the usable text width and
enqueue the item, dropping it when the text is empty (JS falsy) or the usable
width is not positive.  Returns the enqueued item, if any. -/
def addText (blockPaddingLeftRight : ℚ) (text : List Char) (x y w : ℚ) :
    Option TextItem :=
  if text = [] then none
  else if textMaxWidthOf blockPaddingLeftRight x w > 0 then
    some ⟨text, x, y, w, textMaxWidthOf blockPaddingLeftRight x w⟩
  else none

/-! ## JS objects as insertion-ordered association lists -/

/-- Property read `obj[k]` on a JS object modelled as an insertion-ordered
association list; `none` models `undefined`. -/
def assocGet {κ α : Type _} [BEq κ] (m : List (κ × α)) (k : κ) : Option α :=
  (m.find? (fun e => e.1 == k)).map (fun e => e.2)

/-- In-place update of `obj[k]` (creating the key at the end, in insertion
order, with default `d` when absent): models the
`if (!obj[k]) obj[k] = d; f(obj[k])` idiom. -/
def assocUpdate {κ α : Type _} [BEq κ] (m : List (κ × α)) (k : κ) (d : α)
    (f : α → α) : List (κ × α) :=
  match m with
  | [] => [(k, f d)]
  | (k', v) :: t =>
    if k' == k then (k', f v) :: t else (k', v) :: assocUpdate t k d f

/-! ## Render queue data model -/

/-- A queued stroke item (`Stroke` in `types.ts`). -/
structure StrokeItem where
  color : String
  x : ℚ
  y : ℚ
  w : ℚ
  h : ℚ
deriving DecidableEq, Repr

/-- A rect object as passed to `addRect` (`pattern = none` models an absent
field).  Rect objects live in a heap (`Store`) and are handled by reference,
so the in-place mutation done by `addRect` is observable. -/
structure RectObj where
  color : String
  pattern : Option String
  x : ℚ
  y : ℚ
  w : ℚ
  h : Option ℚ
deriving DecidableEq, Repr

/-- Object identity of a rect passed to `addRect`. -/
abbrev Ref := ℕ

/-- The heap of rect objects, by identity. -/
abbrev Store := List (Ref × RectObj)

/-- Heap read. -/
def storeGet (σ : Store) (r : Ref) : Option RectObj := assocGet σ r

/-- Heap write (latest write wins on lookup). -/
def storeSet (σ : Store) (r : Ref) (o : RectObj) : Store := (r, o) :: σ

/-- JS falsiness of an optional string (`undefined` and `''` are falsy). -/
def strFalsy : Option String → Bool
  | none => true
  | some s => decide (s = "")

/-- One priority bucket of the render queue:
`{ text: Text[], stroke: Stroke[], rect: RectRenderQueue }` where the rect
part maps pattern name → color → rect objects, in insertion order. -/
structure Bucket where
  text : List TextItem
  stroke : List StrokeItem
  rect : List (String × List (String × List Ref))
deriving DecidableEq, Repr

/-- The empty bucket created by `getQueue` for a fresh priority. -/
def emptyBucket : Bucket := ⟨[], [], []⟩

/-- `this.queue`: mapping from integer priority to bucket. -/
abbrev RenderQueue := List (Int × Bucket)

/-- The rect part of `addRect`: lazily create
`queue.rect[pattern][color]` and push the rect object onto it. -/
def pushRectRef (rq : List (String × List (String × List Ref)))
    (pat color : String) (r : Ref) : List (String × List (String × List Ref)) :=
  assocUpdate rq pat []
    (fun colors => assocUpdate colors color [] (fun refs => refs ++ [r]))

/-- `addRect(rect, priority)`: default the rect's `pattern` field to
`'none'` by writing into the rect object itself, then push that same object
into `queue[priority].rect[pattern][color]` (creating the bucket lazily). -/
def addRect (σ : Store) (q : RenderQueue) (r : Ref) (priority : Int) :
    Store × RenderQueue :=
  match storeGet σ r with
  | none => (σ, q)
  | some rect =>
    let patName := if strFalsy rect.pattern then "none" else rect.pattern.getD "none"
    let rect' := { rect with pattern := some patName }
    (storeSet σ r rect',
     assocUpdate q priority emptyBucket
       (fun b => { b with rect := pushRectRef b.rect patName rect'.color r }))

/-- The refs stored in `queue[priority].rect[pattern][color]`. -/
def queueRectRefs (q : RenderQueue) (p : Int) (pat color : String) : List Ref :=
  (assocGet ((assocGet ((assocGet q p).getD emptyBucket).rect pat).getD []) color).getD []

/-! ## `resolveQueue` paint order -/

/-- One observable paint call issued during `resolveQueue`. -/
inductive PaintOp where
  | rectOp : Ref → PaintOp
  | textOp : TextItem → PaintOp
  | strokeOp : StrokeItem → PaintOp
deriving DecidableEq, Repr

/-- The rect paint calls of one bucket, in `renderRects` iteration order
(patterns in insertion order, then colors, then items). -/
def bucketRectOps (b : Bucket) : List PaintOp :=
  (b.rect.map (fun pc => (pc.2.map (fun ci => ci.2.map PaintOp.rectOp)).flatten)).flatten

/-- All paint calls of one bucket: rects, then texts, then strokes. -/
def bucketTrace (b : Bucket) : List PaintOp :=
  bucketRectOps b ++ b.text.map PaintOp.textOp ++ b.stroke.map PaintOp.strokeOp

/-- The decimal string a JS number key is converted to by the default sort. -/
def jsIntKeyChars (n : Int) : List Char := (toString n).toList

/-- ES string `<`: lexicographic comparison by UTF-16 code unit. -/
def jsStrLt : List Char → List Char → Bool
  | [], [] => false
  | [], _ :: _ => true
  | _ :: _, [] => false
  | a :: as, b :: bs =>
    if a.val < b.val then true
    else if b.val < a.val then false
    else jsStrLt as bs

/-- Insert a priority into a list kept ascending under the default
(string-comparing) JS `Array.prototype.sort()` order. -/
def jsSortInsert (x : Int) : List Int → List Int
  | [] => [x]
  | y :: ys =>
    if jsStrLt (jsIntKeyChars y) (jsIntKeyChars x) then y :: jsSortInsert x ys
    else x :: y :: ys

/-- `Object.keys(queue).map(parseInt).sort()`: the priorities sorted by the
comparator-less JS sort, i.e. by their decimal string representations. -/
def jsSortKeys (l : List Int) : List Int := l.foldr jsSortInsert []

/-- `resolveQueue()`: visit the priorities in default-sort order and paint
each bucket's rects, then texts, then strokes.  Returns the full paint
trace. -/
def resolveQueue (q : RenderQueue) : List PaintOp :=
  ((jsSortKeys (q.map (fun e => e.1))).map
    (fun p => bucketTrace ((assocGet q p).getD emptyBucket))).flatten

/-! ## Pattern registry -/

/-- A registered pattern: `{ scale, width, pattern }`, with the canvas
pattern resource modelled by the identity (creation counter value) of the
`creator` invocation that produced it. -/
structure Pattern where
  scale : ℚ
  width : ℚ
  resource : ℕ
deriving DecidableEq, Repr

/-- The `scale`/`width` overrides a `PatternCreator` returns alongside the
fill resource it creates. -/
structure PatternConfig where
  scaleOverride : Option ℚ
  widthOverride : Option ℚ
deriving DecidableEq, Repr

/-- Registry state: the `patterns` map plus the observable creation effects
(each `creator` invocation makes one fresh pattern resource). -/
structure PatternRegistry where
  patterns : List (String × Pattern)
  nextResource : ℕ
  creatorInvocations : ℕ
deriving DecidableEq, Repr

/-- `createBlockPattern({name, creator})`: invoke the creator (allocating a
fresh resource) and store `{scale: 1, width: 10, ...creator(this)}` under
`name`. -/
def createBlockPattern (s : PatternRegistry) (name : String) (cfg : PatternConfig) :
    PatternRegistry :=
  { patterns := (name,
      { scale := cfg.scaleOverride.getD 1,
        width := cfg.widthOverride.getD 10,
        resource := s.nextResource }) :: s.patterns,
    nextResource := s.nextResource + 1,
    creatorInvocations := s.creatorInvocations + 1 }

/-- `createDefaultPattern({name, type, config})`: look up the built-in
generator for `type` (the table lives in `patterns.ts` and is passed here as
`defaults`) and register through `createBlockPattern`; silently skip unknown
types. -/
def createDefaultPattern (defaults : String → Option PatternConfig)
    (s : PatternRegistry) (name ptype : String) : PatternRegistry :=
  match defaults ptype with
  | some cfg => createBlockPattern s name cfg
  | none => s

/-- `createCachedDefaultPattern(pattern)`: register only when no pattern with
that name is present yet. -/
def createCachedDefaultPattern (defaults : String → Option PatternConfig)
    (s : PatternRegistry) (name ptype : String) : PatternRegistry :=
  if assocGet s.patterns name = none then createDefaultPattern defaults s name ptype
  else s

/-! ## Drawing-state cache (`setCtxValue` / `callCtx`) -/

/-- A JS primitive value of the kinds the ctx cache handles
(`value: number | string`). -/
inductive JSVal where
  | num : ℚ → JSVal
  | str : String → JSVal
deriving DecidableEq, Repr

/-- JS truthiness of a number-or-string value (`0`, `NaN`-free model, and the
empty string are falsy). -/
def JSVal.truthy : JSVal → Bool
  | JSVal.num q => decide (q ≠ 0)
  | JSVal.str s => decide (s ≠ "")

/-- A JS object used as a string-keyed dictionary. -/
abbrev JSRecord := List (String × JSVal)

/-- Property read `obj[k]`: `none` models `undefined`. -/
def jsGet (m : JSRecord) (k : String) : Option JSVal :=
  (m.find? (fun e => e.1 == k)).map (fun e => e.2)

/-- Property write `obj[k] = v` (latest write wins on lookup). -/
def jsSet (m : JSRecord) (k : String) (v : JSVal) : JSRecord :=
  (k, v) :: m

/-- `!x` on an optional JS value: `undefined` and falsy values give `true`. -/
def jsFalsyOpt : Option JSVal → Bool
  | none => true
  | some v => !v.truthy

/-- The engine's drawing-state caches together with the observable effect on
the underlying surface: `writes` logs every `ctx[field] = value` assignment
and `calls` logs every `ctx[fn](value)` invocation. -/
structure CtxState where
  cachedSettings : JSRecord
  cachedCalls : JSRecord
  writes : List (String × JSVal)
  calls : List (String × JSVal)
deriving DecidableEq, Repr

/-- The state after `reset()` / construction: both caches empty,
no surface effects yet. -/
def initialCtx : CtxState := ⟨[], [], [], []⟩

/-- `setCtxValue(field, value)`: assign `ctx[field]` and update the cache only
when `ctxCachedSettings[field] !== value`. -/
def setCtxValue (s : CtxState) (field : String) (value : JSVal) : CtxState :=
  if jsGet s.cachedSettings field ≠ some value then
    { s with
      writes := s.writes ++ [(field, value)],
      cachedSettings := jsSet s.cachedSettings field value }
  else s

/-- `callCtx(fn, value)`: invoke `ctx[fn](value)` and update the cache when
`!ctxCachedCalls[fn] || ctxCachedCalls[fn] !== value`. -/
def callCtx (s : CtxState) (fn : String) (value : JSVal) : CtxState :=
  if jsFalsyOpt (jsGet s.cachedCalls fn) = true ∨ jsGet s.cachedCalls fn ≠ some value
  then
    { s with
      calls := s.calls ++ [(fn, value)],
      cachedCalls := jsSet s.cachedCalls fn value }
  else s

/-! ## Text fitting (`renderTexts`) -/

/-- The ellipsis glyph inserted by the text fitter. -/
def ellipsisChar : Char := '…'

/-- `avgCharWidth = textWidth / text.length` from `renderTexts`
(`textWidth` is the measured width of the whole string). -/
def avgCharWidthOf (text : List Char) (textWidth : ℚ) : ℚ :=
  textWidth / (text.length : ℚ)

/-- `maxChars = Math.floor((textMaxWidth - placeholderWidth) / avgCharWidth)`
from `renderTexts`. -/
def maxCharsOf (text : List Char) (textWidth textMaxWidth placeholderWidth : ℚ) : ℤ :=
  ⌊(textMaxWidth - placeholderWidth) / avgCharWidthOf text textWidth⌋

/-- `halfChars = (maxChars - 1) / 2` from `renderTexts`. -/
def halfCharsOf (text : List Char) (textWidth textMaxWidth placeholderWidth : ℚ) : ℚ :=
  ((maxCharsOf text textWidth textMaxWidth placeholderWidth : ℚ) - 1) / 2

/-- The string actually drawn by `renderTexts` for one queued text item:
unchanged when it fits, middle-elided when it overflows and at least one
character fits on each side, empty otherwise. -/
def fitText (text : List Char) (textWidth textMaxWidth placeholderWidth : ℚ) :
    List Char :=
  if textWidth > textMaxWidth then
    if halfCharsOf text textWidth textMaxWidth placeholderWidth > 0 then
      text.take (⌈halfCharsOf text textWidth textMaxWidth placeholderWidth⌉).toNat ++
        [ellipsisChar] ++
        text.drop (text.length -
          (⌊halfCharsOf text textWidth textMaxWidth placeholderWidth⌋).toNat)
    else []
  else text

/-! ## Pattern anchoring (`renderRects` transform) -/

/-- The floored modulus computed in `renderRects`:
`fullDeltaX - Math.floor(fullDeltaX / width) * width`. -/
def jsFloorMod (a b : ℚ) : ℚ := a - ⌊a / b⌋ * b

/-- Horizontal pattern-transform translation from `renderRects`:
`fullDeltaX = rect.x * pattern.scale` reduced modulo `pattern.width`. -/
def patternDeltaX (x scale width : ℚ) : ℚ := jsFloorMod (x * scale) width

/-- The `(dx, dy)` pair handed to `pattern.setTransform(matrix.translate(…))`
in `renderRects` for a rect at `(x, y)`. -/
def patternTranslate (x y scale width : ℚ) : ℚ × ℚ :=
  (patternDeltaX x scale width, y * scale)

/-- Modelled from the spec's words (claim C2): horizontal translation
`(x*scale) mod (width*scale)`. -/
def specPatternDeltaX (x scale width : ℚ) : ℚ :=
  jsFloorMod (x * scale) (width * scale)

/-! # Theorems -/

/-- C4: `renderBlock` draws at `truncatedX = clamp(x, 0, width)` with width
`clamp(w - (truncatedX - x), 0, width - truncatedX)`; the drawn width is never
negative; and a rect with `x = -50`, `w = 100` on a `0..800` viewport is drawn
at `x = 0` with width `50`. -/
theorem renderBlock_clamps (width x w : ℚ) (hw : 0 ≤ width) :
    (renderBlockGeom width x w).1 = specClamp x 0 width ∧
    (renderBlockGeom width x w).2 =
      specClamp (w - ((renderBlockGeom width x w).1 - x)) 0
        (width - (renderBlockGeom width x w).1) ∧
    0 ≤ (renderBlockGeom width x w).2 ∧
    renderBlockGeom 800 (-50) 100 = (0, 50) := by
  have hA : 0 ≤ width - min width (max 0 x) := by
    have : min width (max 0 x) ≤ width := min_le_left _ _
    linarith
  refine ⟨?_, ?_, ?_, by norm_num [renderBlockGeom]⟩
  · simp only [renderBlockGeom, specClamp]
    rcases le_total x 0 with hx | hx
    · rw [max_eq_left hx, min_eq_right hw, max_eq_left]
      exact min_le_of_left_le hx
    · rw [max_eq_right hx, min_comm x width, max_eq_right]
      exact le_min hw hx
  · simp only [renderBlockGeom, specClamp]
    rcases le_total (w - (min width (max 0 x) - x)) 0 with hB | hB
    · rw [max_eq_left hB, min_eq_right hA, max_eq_left]
      exact min_le_of_left_le hB
    · rw [max_eq_right hB]
      rw [max_eq_right (le_min hB hA), min_comm]
  · simp only [renderBlockGeom]
    exact le_min hA (le_max_left 0 _)

/-- C4 witness: the theorem applied at the spec's concrete example,
`x = -50`, `w = 100`, viewport width `800`. -/
theorem renderBlock_clamps_witness :
    (renderBlockGeom 800 (-50) 100).1 = specClamp (-50) 0 800 ∧
    0 ≤ (renderBlockGeom 800 (-50) 100).2 ∧
    renderBlockGeom 800 (-50) 100 = (0, 50) :=
  ⟨(renderBlock_clamps 800 (-50) 100 (by norm_num)).1,
   (renderBlock_clamps 800 (-50) 100 (by norm_num)).2.2.1,
   (renderBlock_clamps 800 (-50) 100 (by norm_num)).2.2.2⟩

/-- C3: when `max - min ≥ realView` (with `realView = width/zoom`), the
position produced by `tryToChangePosition` always lies in
`[min, max - realView]`, and a move past a boundary snaps to the nearest
valid edge instead of being rejected. -/
theorem tryToChangePosition_clamps (width zoom mn mx posX delta : ℚ)
    (hzoom : 0 < zoom) (hview : getRealView width zoom ≤ mx - mn) :
    mn ≤ tryToChangePosition width zoom mn mx posX delta ∧
    tryToChangePosition width zoom mn mx posX delta ≤ mx - getRealView width zoom ∧
    (posX + delta < mn → tryToChangePosition width zoom mn mx posX delta = mn) ∧
    (mx - getRealView width zoom < posX + delta →
      tryToChangePosition width zoom mn mx posX delta = mx - getRealView width zoom) := by
  set rv := getRealView width zoom with hrv
  simp only [tryToChangePosition, ← hrv]
  split
  · next h =>
    refine ⟨h.2, by linarith [h.1], fun hlt => absurd h.2 (by linarith), fun hgt => ?_⟩
    exact absurd h.1 (by linarith)
  · next h1 =>
    split
    · next h2 =>
      refine ⟨le_refl mn, by linarith, fun _ => rfl, fun hgt => ?_⟩
      exact absurd hgt (by linarith)
    · next h2 =>
      push_neg at h1 h2
      split
      · next h3 =>
        refine ⟨by linarith, le_refl _, fun hlt => absurd hlt (by linarith), fun _ => rfl⟩
      · next h3 =>
        push_neg at h3
        exact absurd (h1 (by linarith)) (by linarith)

/-- C3 witness: with `width = 100`, `zoom = 1`, `min = 0`, `max = 200`,
`positionX = 0`, `delta = 500`, the move snaps to `max - realView = 100`. -/
theorem tryToChangePosition_clamps_witness :
    tryToChangePosition 100 1 0 200 0 500 = 200 - getRealView 100 1 :=
  (tryToChangePosition_clamps 100 1 0 200 0 500 (by norm_num)
    (by norm_num [getRealView])).2.2.2 (by norm_num [getRealView])

/-- C5: an item enqueued by `addText` always has
`textMaxWidth = w - 2*padding - max 0 (-x)` and that value positive; when the
formula is not positive the item is dropped. -/
theorem addText_textMaxWidth (p : ℚ) (text : List Char) (x y w : ℚ) :
    (∀ item, addText p text x y w = some item →
      item.textMaxWidth = w - 2 * p - max 0 (-x) ∧ 0 < item.textMaxWidth) ∧
    (w - 2 * p - max 0 (-x) ≤ 0 → addText p text x y w = none) := by
  have hform : textMaxWidthOf p x w = w - 2 * p - max 0 (-x) := by
    simp only [textMaxWidthOf]
    split
    · next hx => rw [max_eq_right (by linarith)]; ring
    · next hx => rw [max_eq_left (by push_neg at hx; linarith)]; ring
  constructor
  · intro item hitem
    simp only [addText] at hitem
    split at hitem
    · exact absurd hitem (by simp)
    · split at hitem
      · next hpos =>
        rw [Option.some.injEq] at hitem
        subst hitem
        exact ⟨hform, hpos⟩
      · exact absurd hitem (by simp)
  · intro hle
    simp only [addText]
    split
    · rfl
    · rw [if_neg (not_lt.mpr (hform ▸ hle))]

/-- C5 witness: `addText` with padding `4` on a 1-character text at
`x = 0, w = 20` enqueues an item with `textMaxWidth = 12 > 0`. -/
theorem addText_textMaxWidth_witness :
    TextItem.textMaxWidth ⟨[Char.ofNat 97], 0, 0, 20, 12⟩ = 20 - 2 * 4 - max 0 (-(0:ℚ)) ∧
    (0:ℚ) < TextItem.textMaxWidth ⟨[Char.ofNat 97], 0, 0, 20, 12⟩ :=
  (addText_textMaxWidth 4 [Char.ofNat 97] 0 0 20).1 ⟨[Char.ofNat 97], 0, 0, 20, 12⟩
    (by norm_num [addText, textMaxWidthOf])

/-- C10: `addText` with an empty text string never enqueues anything,
whatever the geometry. -/
theorem addText_empty_dropped (p x y w : ℚ) : addText p [] x y w = none := by
  simp [addText]

/-- C2 counterexample: with `scale = 2`, `width = 10`, `x = 7` the code
translates the tile by `(7*2) mod 10 = 4`, not by `(7*2) mod (10*2) = 14` as
the claim's formula states. -/
theorem patternDeltaX_not_mod_width_mul_scale :
    patternDeltaX 7 2 10 = 4 ∧ specPatternDeltaX 7 2 10 = 14 ∧
    patternDeltaX 7 2 10 ≠ specPatternDeltaX 7 2 10 := by
  norm_num [patternDeltaX, specPatternDeltaX, jsFloorMod]

/-- C2 (amended): the pattern transform is translated horizontally by
`(x*scale) mod width` (not `mod (width*scale)`) and vertically by `y*scale`;
consequently two rects whose `x` coordinates differ by an integer multiple of
`width/scale` get an identical tile phase, and in particular the rects at
`x = 0` and `x = 100` with `scale = 1`, `width = 10` do. -/
theorem patternTranslate_phase (x y scale width : ℚ)
    (hs : scale ≠ 0) (hw : width ≠ 0) :
    patternTranslate x y scale width = (jsFloorMod (x * scale) width, y * scale) ∧
    (∀ k : ℤ, patternDeltaX (x + k * (width / scale)) scale width =
      patternDeltaX x scale width) ∧
    patternDeltaX 0 1 10 = patternDeltaX 100 1 10 := by
  refine ⟨rfl, ?_, by norm_num [patternDeltaX, jsFloorMod]⟩
  intro k
  simp only [patternDeltaX, jsFloorMod]
  have h1 : (x + k * (width / scale)) * scale = x * scale + k * width := by
    field_simp
  rw [h1]
  have h2 : (x * scale + k * width) / width = x * scale / width + k := by
    field_simp
  rw [h2, Int.floor_add_int]
  push_cast
  ring

/-- C2 witness: rects at `x = 3` and `x = 3 + 3*(10/2)` under a pattern with
`scale = 2`, `width = 10` get the same horizontal tile translation. -/
theorem patternTranslate_phase_witness :
    patternDeltaX (3 + (3:ℤ) * ((10:ℚ) / 2)) 2 10 = patternDeltaX 3 2 10 :=
  (patternTranslate_phase 3 5 2 10 (by norm_num) (by norm_num)).2.1 3

/-- C6 counterexample: a 4-character text consisting only of ellipsis glyphs,
measured at width `40` against `textMaxWidth = 35` with ellipsis width `1`,
is elided to a 3-character string containing three ellipsis glyphs, not
exactly one. -/
theorem fitText_three_ellipses :
    fitText (List.replicate 4 ellipsisChar) 40 35 1 = List.replicate 3 ellipsisChar ∧
    (fitText (List.replicate 4 ellipsisChar) 40 35 1).count ellipsisChar ≠ 1 := by
  have h1 : halfCharsOf (List.replicate 4 ellipsisChar) 40 35 1 = 1 := by
    norm_num [halfCharsOf, maxCharsOf, avgCharWidthOf]
  have h2 : fitText (List.replicate 4 ellipsisChar) 40 35 1 =
      List.replicate 3 ellipsisChar := by
    simp only [fitText, h1]
    norm_num
    decide
  exact ⟨h2, by rw [h2]; decide⟩

/-- C6 (amended): a text that fits is drawn unmodified; an overflowing text
with `halfChars ≤ 0` is suppressed entirely; an overflowing text with
`halfChars > 0` is rendered as its first `⌈halfChars⌉` characters, one
ellipsis glyph, then its last `⌊halfChars⌋` characters, so the leading count
is at least the trailing count, and — provided the source text itself
contains no ellipsis glyph — the result contains exactly one ellipsis. -/
theorem fitText_spec (text : List Char) (tw tmw pw : ℚ)
    (htw : 0 < tw) (hpw : 0 ≤ pw) (hne : text ≠ []) :
    (tw ≤ tmw → fitText text tw tmw pw = text) ∧
    (tmw < tw → halfCharsOf text tw tmw pw ≤ 0 → fitText text tw tmw pw = []) ∧
    (tmw < tw → 0 < halfCharsOf text tw tmw pw →
      fitText text tw tmw pw =
        text.take (⌈halfCharsOf text tw tmw pw⌉).toNat ++ [ellipsisChar] ++
          text.drop (text.length - (⌊halfCharsOf text tw tmw pw⌋).toNat) ∧
      (⌊halfCharsOf text tw tmw pw⌋).toNat ≤ (⌈halfCharsOf text tw tmw pw⌉).toNat ∧
      (ellipsisChar ∉ text → (fitText text tw tmw pw).count ellipsisChar = 1)) := by
  refine ⟨fun hfit => ?_, fun hov hhalf => ?_, fun hov hhalf => ?_⟩
  · simp only [fitText]
    rw [if_neg (not_lt.mpr hfit)]
  · simp only [fitText]
    rw [if_pos hov, if_neg (not_lt.mpr hhalf)]
  · have hstruct : fitText text tw tmw pw =
        text.take (⌈halfCharsOf text tw tmw pw⌉).toNat ++ [ellipsisChar] ++
          text.drop (text.length - (⌊halfCharsOf text tw tmw pw⌋).toNat) := by
      simp only [fitText]
      rw [if_pos hov, if_pos hhalf]
    refine ⟨hstruct, Int.toNat_le_toNat (Int.floor_le_ceil _), fun hnot => ?_⟩
    rw [hstruct]
    have htake : (text.take (⌈halfCharsOf text tw tmw pw⌉).toNat).count ellipsisChar = 0 :=
      List.count_eq_zero.mpr fun hmem => hnot (List.take_subset _ _ hmem)
    have hdrop : (text.drop (text.length -
        (⌊halfCharsOf text tw tmw pw⌋).toNat)).count ellipsisChar = 0 :=
      List.count_eq_zero.mpr fun hmem => hnot (List.drop_subset _ _ hmem)
    rw [List.count_append, List.count_append, htake, hdrop]
    simp

/-- C6 witness: `"abcdefghij"` measured at width `100` against
`textMaxWidth = 55` with ellipsis width `5` (`maxChars = 5`,
`halfChars = 2`) is elided per the formula and contains exactly one
ellipsis. -/
theorem fitText_spec_witness :
    fitText ([Char.ofNat 97, Char.ofNat 98, Char.ofNat 99, Char.ofNat 100,
        Char.ofNat 101, Char.ofNat 102]) 30 17 5 =
      ([Char.ofNat 97, Char.ofNat 98, Char.ofNat 99, Char.ofNat 100,
          Char.ofNat 101, Char.ofNat 102]).take
          (⌈halfCharsOf ([Char.ofNat 97, Char.ofNat 98, Char.ofNat 99, Char.ofNat 100,
            Char.ofNat 101, Char.ofNat 102]) 30 17 5⌉).toNat ++
        [ellipsisChar] ++
        ([Char.ofNat 97, Char.ofNat 98, Char.ofNat 99, Char.ofNat 100,
            Char.ofNat 101, Char.ofNat 102]).drop
          (([Char.ofNat 97, Char.ofNat 98, Char.ofNat 99, Char.ofNat 100,
              Char.ofNat 101, Char.ofNat 102]).length -
            (⌊halfCharsOf ([Char.ofNat 97, Char.ofNat 98, Char.ofNat 99, Char.ofNat 100,
              Char.ofNat 101, Char.ofNat 102]) 30 17 5⌋).toNat) ∧
    (fitText ([Char.ofNat 97, Char.ofNat 98, Char.ofNat 99, Char.ofNat 100,
        Char.ofNat 101, Char.ofNat 102]) 30 17 5).count ellipsisChar = 1 := by
  have hhalf : halfCharsOf ([Char.ofNat 97, Char.ofNat 98, Char.ofNat 99, Char.ofNat 100,
      Char.ofNat 101, Char.ofNat 102]) 30 17 5 = 1 / 2 := by
    norm_num [halfCharsOf, maxCharsOf, avgCharWidthOf]
  have h := (fitText_spec ([Char.ofNat 97, Char.ofNat 98, Char.ofNat 99, Char.ofNat 100,
      Char.ofNat 101, Char.ofNat 102]) 30 17 5 (by norm_num)
    (by norm_num) (by decide)).2.2 (by norm_num) (by rw [hhalf]; norm_num)
  exact ⟨h.1, h.2.2 (by decide)⟩

/-- Reading back the key just updated by `assocUpdate` yields the updated
value. -/
theorem assocGet_assocUpdate_self {κ α : Type _} [BEq κ] [LawfulBEq κ]
    (m : List (κ × α)) (k : κ) (d : α) (f : α → α) :
    assocGet (assocUpdate m k d f) k = some (f ((assocGet m k).getD d)) := by
  induction m with
  | nil => simp [assocGet, assocUpdate]
  | cons e t ih =>
    obtain ⟨k', v⟩ := e
    by_cases hk : k' == k
    · simp [assocGet, assocUpdate, hk]
    · simp only [assocUpdate, hk, Bool.false_eq_true, if_false]
      simp only [assocGet, List.find?_cons, hk] at ih ⊢
      exact ih

/-- Reading back a key just written into a JS record yields the written
value. -/
theorem jsGet_jsSet_self (m : JSRecord) (k : String) (v : JSVal) :
    jsGet (jsSet m k v) k = some v := by
  simp [jsGet, jsSet]

/-- C7 counterexample: with the cached last argument of an op equal to the
falsy value `0`, a repeated `callCtx(op, 0)` still re-invokes the underlying
operation — two consecutive identical calls produce two invocations even
though the cached argument does not differ from the new one. -/
theorem callCtx_refires_on_falsy :
    jsGet (callCtx initialCtx "lw" (JSVal.num 0)).cachedCalls "lw" =
      some (JSVal.num 0) ∧
    (callCtx (callCtx initialCtx "lw" (JSVal.num 0)) "lw" (JSVal.num 0)).calls =
      [("lw", JSVal.num 0), ("lw", JSVal.num 0)] := by
  constructor <;> decide

/-- C7 (amended): `setCtxValue` writes to the underlying surface state exactly
when the cached value for the field differs from the new value (so two
consecutive identical `setCtxValue` calls perform one underlying write), while
`callCtx` skips the underlying invocation only when the cached last argument
for the op equals the new value **and** that value is truthy (a cached falsy
value, such as `0` or the empty string, always re-fires). -/
theorem ctxCache_contract (s : CtxState) (field fn : String) (value v : JSVal) :
    (jsGet s.cachedSettings field = some value → setCtxValue s field value = s) ∧
    (jsGet s.cachedSettings field ≠ some value →
      (setCtxValue s field value).writes = s.writes ++ [(field, value)]) ∧
    ((setCtxValue (setCtxValue s field value) field value).writes =
      (setCtxValue s field value).writes) ∧
    (v.truthy = true →
      (callCtx (callCtx s fn v) fn v).calls = (callCtx s fn v).calls) ∧
    (jsGet s.cachedCalls fn = some v → v.truthy = true → callCtx s fn v = s) := by
  have hskip : ∀ t : CtxState, jsGet t.cachedCalls fn = some v → v.truthy = true →
      callCtx t fn v = t := by
    intro t hc ht
    simp only [callCtx, hc, jsFalsyOpt, ht, Bool.not_true, ne_eq, not_true_eq_false,
      or_false]
    rw [if_neg (by simp)]
  have hsame : ∀ t : CtxState, jsGet t.cachedSettings field = some value →
      setCtxValue t field value = t := by
    intro t ht
    simp only [setCtxValue]
    rw [if_neg (not_not_intro ht)]
  refine ⟨hsame s, ?_, ?_, ?_, hskip s⟩
  · intro h
    simp only [setCtxValue]
    rw [if_pos h]
  · by_cases h : jsGet s.cachedSettings field = some value
    · rw [hsame s h, hsame s h]
    · have hset : setCtxValue s field value =
          { s with
            writes := s.writes ++ [(field, value)],
            cachedSettings := jsSet s.cachedSettings field value } := by
        simp only [setCtxValue]
        rw [if_pos h]
      have h1 : jsGet (setCtxValue s field value).cachedSettings field = some value := by
        rw [hset]
        exact jsGet_jsSet_self s.cachedSettings field value
      rw [hsame _ h1]
  · intro ht
    by_cases h : jsFalsyOpt (jsGet s.cachedCalls fn) = true ∨
        jsGet s.cachedCalls fn ≠ some v
    · have hcall : callCtx s fn v =
          { s with
            calls := s.calls ++ [(fn, v)],
            cachedCalls := jsSet s.cachedCalls fn v } := by
        simp only [callCtx]
        rw [if_pos h]
      have h1 : jsGet (callCtx s fn v).cachedCalls fn = some v := by
        rw [hcall]
        exact jsGet_jsSet_self s.cachedCalls fn v
      rw [hskip _ h1 ht]
    · push_neg at h
      rw [hskip s h.2 ht, hskip s h.2 ht]

/-- C7 witness: starting from the reset state, two consecutive
`setCtxValue('fillStyle', 'red')` calls perform exactly one underlying write,
and a repeated truthy `callCtx` does not re-invoke. -/
theorem ctxCache_contract_witness :
    (setCtxValue initialCtx "fillStyle" (JSVal.str "red")).writes =
      initialCtx.writes ++ [("fillStyle", JSVal.str "red")] ∧
    (setCtxValue (setCtxValue initialCtx "fillStyle" (JSVal.str "red"))
        "fillStyle" (JSVal.str "red")).writes =
      (setCtxValue initialCtx "fillStyle" (JSVal.str "red")).writes ∧
    (callCtx (callCtx initialCtx "lw" (JSVal.num 2)) "lw" (JSVal.num 2)).calls =
      (callCtx initialCtx "lw" (JSVal.num 2)).calls :=
  ⟨(ctxCache_contract initialCtx "fillStyle" "lw" (JSVal.str "red")
      (JSVal.num 2)).2.1 (by decide),
   (ctxCache_contract initialCtx "fillStyle" "lw" (JSVal.str "red")
      (JSVal.num 2)).2.2.1,
   (ctxCache_contract initialCtx "fillStyle" "lw" (JSVal.str "red")
      (JSVal.num 2)).2.2.2.1 (by decide)⟩

/-- C8: registering a default pattern through the if-absent path twice is
idempotent, and when the type is known and the name fresh, the double
registration invokes the creator exactly once and leaves the first created
resource stored unchanged. -/
theorem createCachedDefaultPattern_idempotent
    (defaults : String → Option PatternConfig) (s : PatternRegistry)
    (name ptype : String) :
    createCachedDefaultPattern defaults
        (createCachedDefaultPattern defaults s name ptype) name ptype =
      createCachedDefaultPattern defaults s name ptype ∧
    (∀ cfg, defaults ptype = some cfg → assocGet s.patterns name = none →
      (createCachedDefaultPattern defaults
          (createCachedDefaultPattern defaults s name ptype) name ptype).creatorInvocations =
        s.creatorInvocations + 1 ∧
      assocGet (createCachedDefaultPattern defaults
          (createCachedDefaultPattern defaults s name ptype) name ptype).patterns name =
        some { scale := cfg.scaleOverride.getD 1, width := cfg.widthOverride.getD 10,
               resource := s.nextResource }) := by
  have hblock : ∀ cfg, assocGet (createBlockPattern s name cfg).patterns name =
      some { scale := cfg.scaleOverride.getD 1, width := cfg.widthOverride.getD 10,
             resource := s.nextResource } := by
    intro cfg
    simp [createBlockPattern, assocGet]
  have hskip : ∀ t : PatternRegistry, assocGet t.patterns name ≠ none →
      createCachedDefaultPattern defaults t name ptype = t := by
    intro t ht
    simp [createCachedDefaultPattern, ht]
  constructor
  · by_cases h : assocGet s.patterns name = none
    · have h1 : createCachedDefaultPattern defaults s name ptype =
          createDefaultPattern defaults s name ptype := by
        simp [createCachedDefaultPattern, h]
      rw [h1]
      cases hd : defaults ptype with
      | none =>
        have h2 : createDefaultPattern defaults s name ptype = s := by
          simp [createDefaultPattern, hd]
        rw [h2, h1, h2]
      | some cfg =>
        have h2 : createDefaultPattern defaults s name ptype =
            createBlockPattern s name cfg := by
          simp [createDefaultPattern, hd]
        rw [h2]
        exact hskip _ (by rw [hblock cfg]; exact Option.some_ne_none _)
    · rw [hskip s h, hskip s h]
  · intro cfg hcfg hnone
    have h1 : createCachedDefaultPattern defaults s name ptype =
        createBlockPattern s name cfg := by
      simp [createCachedDefaultPattern, hnone, createDefaultPattern, hcfg]
    have h3 : createCachedDefaultPattern defaults
        (createBlockPattern s name cfg) name ptype = createBlockPattern s name cfg :=
      hskip _ (by rw [hblock cfg]; exact Option.some_ne_none _)
    rw [h1, h3]
    exact ⟨by simp [createBlockPattern], hblock cfg⟩

/-- C8 witness: with the built-in table knowing type `"stripes"` and an empty
registry, registering `"p"` twice creates exactly one resource (id `0`) and
stores the default `scale = 1`, `width = 10`. -/
theorem createCachedDefaultPattern_idempotent_witness :
    (createCachedDefaultPattern
        (fun t => if t = "stripes" then some ⟨none, none⟩ else none)
        (createCachedDefaultPattern
          (fun t => if t = "stripes" then some ⟨none, none⟩ else none)
          ⟨[], 0, 0⟩ "p" "stripes") "p" "stripes").creatorInvocations = 0 + 1 ∧
    assocGet (createCachedDefaultPattern
        (fun t => if t = "stripes" then some ⟨none, none⟩ else none)
        (createCachedDefaultPattern
          (fun t => if t = "stripes" then some ⟨none, none⟩ else none)
          ⟨[], 0, 0⟩ "p" "stripes") "p" "stripes").patterns "p" =
      some ⟨1, 10, 0⟩ :=
  (createCachedDefaultPattern_idempotent
      (fun t => if t = "stripes" then some ⟨none, none⟩ else none)
      ⟨[], 0, 0⟩ "p" "stripes").2 ⟨none, none⟩ (by simp) (by simp [assocGet])

/-- C9: when the caller-supplied rect object carries no pattern (or a falsy
one), `addRect` writes `pattern = 'none'` into that very object (the heap
cell changes) and appends the same reference — not a copy — to the
`queue[priority].rect['none'][color]` bucket. -/
theorem addRect_mutates_in_place (σ : Store) (q : RenderQueue) (r : Ref) (p : Int)
    (rect : RectObj) (hr : storeGet σ r = some rect)
    (hf : strFalsy rect.pattern = true) :
    storeGet (addRect σ q r p).1 r = some { rect with pattern := some "none" } ∧
    queueRectRefs (addRect σ q r p).2 p "none" rect.color =
      queueRectRefs q p "none" rect.color ++ [r] := by
  have hstep : addRect σ q r p =
      (storeSet σ r { rect with pattern := some "none" },
       assocUpdate q p emptyBucket
         (fun b => { b with
           rect := pushRectRef b.rect "none" rect.color r })) := by
    simp [addRect, hr, hf]
  rw [hstep]
  constructor
  · simp [storeGet, storeSet, assocGet]
  · simp only [queueRectRefs, pushRectRef, assocGet_assocUpdate_self, Option.getD_some]

/-- C9 witness: a rect with absent pattern field, stored at ref `0`, enqueued
at priority `5`: the heap cell now reads `pattern = 'none'` and the bucket
holds ref `0`. -/
theorem addRect_mutates_in_place_witness :
    storeGet (addRect [(0, ⟨"red", none, 1, 2, 3, none⟩)] [] 0 5).1 0 =
      some { (⟨"red", none, 1, 2, 3, none⟩ : RectObj) with pattern := some "none" } ∧
    queueRectRefs (addRect [(0, ⟨"red", none, 1, 2, 3, none⟩)] [] 0 5).2 5 "none"
        (RectObj.color ⟨"red", none, 1, 2, 3, none⟩) =
      queueRectRefs [] 5 "none" (RectObj.color ⟨"red", none, 1, 2, 3, none⟩) ++ [0] :=
  addRect_mutates_in_place [(0, ⟨"red", none, 1, 2, 3, none⟩)] [] 0 5
    ⟨"red", none, 1, 2, 3, none⟩ rfl rfl

/-- C1: the failing input.  With buckets at priorities `2` and `10`,
`resolveQueue` paints the priority-`10` bucket **before** the priority-`2`
bucket, because `Object.keys(...).map(parseInt).sort()` sorts the numbers by
their decimal strings (`'10' < '2'`), not numerically as the claim states. -/
theorem resolveQueue_string_sorted :
    jsSortKeys [2, 10] = [10, 2] ∧
    resolveQueue [(2, { emptyBucket with stroke := [⟨"s2", 0, 0, 1, 1⟩] }),
                  (10, { emptyBucket with stroke := [⟨"s10", 0, 0, 1, 1⟩] })] =
      [PaintOp.strokeOp ⟨"s10", 0, 0, 1, 1⟩, PaintOp.strokeOp ⟨"s2", 0, 0, 1, 1⟩] := by
  constructor <;> decide

end FlameChart
